import Mathlib

/-!
Shallow embedding of the document-processing core of the Intuitus_AI
repository (`src/app.py`): the md5 fingerprint cache and extraction
dispatch of `DocumentProcessor.process_document`, and the tools
utilities `ToolsProcessor.create_mindmap`, `cluster_documents` and
`generate_prompts`.  Machine integers are modelled as `Nat` with explicit
`% 2^32` where the underlying arithmetic wraps (the md5 compression
function); raw file content is a list of byte values.
-/

namespace IntuitusAI

/-- Raw file content: a list of bytes, each a natural number below 256. -/
abbrev Bytes := List Nat

/-! ### md5 (`hashlib.md5(file_content).hexdigest()`, `src/app.py` line 72)

`DocumentProcessor.get_file_hash` delegates to Python's `hashlib.md5`.
The digest is embedded in full (RFC 1321): padding, 64-round compression
per 512-bit chunk, little-endian hex output. -/

/-- 2^32, the modulus of the 32-bit wrap-around arithmetic of md5. -/
def m32 : Nat := 4294967296

/-- The 64 round constants `K[i] = floor(2^32 * abs(sin(i+1)))` of md5. -/
def md5K : List Nat :=
  [0xd76aa478, 0xe8c7b756, 0x242070db, 0xc1bdceee,
   0xf57c0faf, 0x4787c62a, 0xa8304613, 0xfd469501,
   0x698098d8, 0x8b44f7af, 0xffff5bb1, 0x895cd7be,
   0x6b901122, 0xfd987193, 0xa679438e, 0x49b40821,
   0xf61e2562, 0xc040b340, 0x265e5a51, 0xe9b6c7aa,
   0xd62f105d, 0x02441453, 0xd8a1e681, 0xe7d3fbc8,
   0x21e1cde6, 0xc33707d6, 0xf4d50d87, 0x455a14ed,
   0xa9e3e905, 0xfcefa3f8, 0x676f02d9, 0x8d2a4c8a,
   0xfffa3942, 0x8771f681, 0x6d9d6122, 0xfde5380c,
   0xa4beea44, 0x4bdecfa9, 0xf6bb4b60, 0xbebfbc70,
   0x289b7ec6, 0xeaa127fa, 0xd4ef3085, 0x04881d05,
   0xd9d4d039, 0xe6db99e5, 0x1fa27cf8, 0xc4ac5665,
   0xf4292244, 0x432aff97, 0xab9423a7, 0xfc93a039,
   0x655b59c3, 0x8f0ccc92, 0xffeff47d, 0x85845dd1,
   0x6fa87e4f, 0xfe2ce6e0, 0xa3014314, 0x4e0811a1,
   0xf7537e82, 0xbd3af235, 0x2ad7d2bb, 0xeb86d391]

/-- The 64 per-round left-rotation amounts of md5. -/
def md5S : List Nat :=
  [7, 12, 17, 22, 7, 12, 17, 22, 7, 12, 17, 22, 7, 12, 17, 22,
   5, 9, 14, 20, 5, 9, 14, 20, 5, 9, 14, 20, 5, 9, 14, 20,
   4, 11, 16, 23, 4, 11, 16, 23, 4, 11, 16, 23, 4, 11, 16, 23,
   6, 10, 15, 21, 6, 10, 15, 21, 6, 10, 15, 21, 6, 10, 15, 21]

/-- 32-bit left rotation. -/
def rotl32 (x c : Nat) : Nat := ((x <<< c) ||| (x >>> (32 - c))) % m32

/-- md5 padding: append `0x80`, zero bytes up to 56 mod 64, then the
original length in bits as a 64-bit little-endian quantity. -/
def md5Pad (msg : Bytes) : Bytes :=
  let len := msg.length
  let zeros := (56 + 64 - ((len + 1) % 64)) % 64
  let bitLen := (len * 8) % (2 ^ 64)
  msg ++ [0x80] ++ List.replicate zeros 0 ++
    ((List.range 8).map fun i => (bitLen >>> (8 * i)) % 256)

/-- Split a byte list into 64-byte chunks (the padded message length is
always a multiple of 64). -/
def chunks64 (l : Bytes) : List Bytes :=
  (List.range ((l.length + 63) / 64)).map fun i => (l.drop (64 * i)).take 64

/-- The `g`-th 32-bit message word of a chunk, little-endian. -/
def md5Word (chunk : Bytes) (g : Nat) : Nat :=
  chunk.getD (4 * g) 0 + (chunk.getD (4 * g + 1) 0 <<< 8) +
    (chunk.getD (4 * g + 2) 0 <<< 16) + (chunk.getD (4 * g + 3) 0 <<< 24)

/-- The md5 round mixing function (four variants by round quarter). -/
def md5F (i b c d : Nat) : Nat :=
  if i < 16 then (b &&& c) ||| ((b ^^^ 0xffffffff) &&& d)
  else if i < 32 then (d &&& b) ||| ((d ^^^ 0xffffffff) &&& c)
  else if i < 48 then b ^^^ c ^^^ d
  else c ^^^ (b ||| (d ^^^ 0xffffffff))

/-- The md5 message-word index schedule. -/
def md5G (i : Nat) : Nat :=
  if i < 16 then i
  else if i < 32 then (5 * i + 1) % 16
  else if i < 48 then (3 * i + 5) % 16
  else (7 * i) % 16

/-- One md5 round on the state `(a, b, c, d)`. -/
def md5Round (chunk : Bytes) (st : Nat × Nat × Nat × Nat) (i : Nat) :
    Nat × Nat × Nat × Nat :=
  let (a, b, c, d) := st
  let f := (md5F i b c d + a + md5K.getD i 0 + md5Word chunk (md5G i)) % m32
  (d, (b + rotl32 f (md5S.getD i 0)) % m32, b, c)

/-- Process one 64-byte chunk: 64 rounds, then add into the running state. -/
def md5Chunk (st : Nat × Nat × Nat × Nat) (chunk : Bytes) :
    Nat × Nat × Nat × Nat :=
  let (a0, b0, c0, d0) := st
  let (a, b, c, d) := (List.range 64).foldl (md5Round chunk) st
  ((a0 + a) % m32, (b0 + b) % m32, (c0 + c) % m32, (d0 + d) % m32)

/-- Lowercase hex digit. -/
def hexChar (n : Nat) : Char := "0123456789abcdef".toList.getD n '0'

/-- Two lowercase hex digits of a byte. -/
def byteHex (b : Nat) : String := String.mk [hexChar (b / 16 % 16), hexChar (b % 16)]

/-- A 32-bit word as eight hex digits, little-endian byte order. -/
def word32LEHex (w : Nat) : String :=
  byteHex (w % 256) ++ byteHex (w >>> 8 % 256) ++
    byteHex (w >>> 16 % 256) ++ byteHex (w >>> 24 % 256)

/-- `DocumentProcessor.get_file_hash` (`src/app.py` lines 69-72):
the md5 hex digest of the raw file content, used as the cache key. -/
def get_file_hash (file_content : Bytes) : String :=
  let (a, b, c, d) :=
    (chunks64 (md5Pad file_content)).foldl md5Chunk
      (0x67452301, 0xefcdab89, 0x98badcfe, 0x10325476)
  word32LEHex a ++ word32LEHex b ++ word32LEHex c ++ word32LEHex d

/-! ### Python string primitives used by `src/app.py`

`bytes.decode("utf-8")`, `str.split()` (whitespace), `str.split(sep)`,
`str.strip(chars)`, `str.lower()`, `str.upper()`, `str.join`.
Case mapping is modelled on the ASCII range (`Char.toLower`/`Char.toUpper`),
which covers every string literal occurring in the program. -/

/-- A Python `UnicodeDecodeError`: the offending byte, its position, and
the reason phrase. -/
structure UnicodeDecodeErr where
  byte : Nat
  pos : Nat
  reason : String
deriving DecidableEq, Repr

/-- `str(e)` for a `UnicodeDecodeError` (modelled on the single-byte form
of CPython's message). -/
def uerrString (e : UnicodeDecodeErr) : String :=
  "\x27utf-8\x27 codec can\x27t decode byte 0x" ++ byteHex e.byte ++
    " in position " ++ toString e.pos ++ ": " ++ e.reason

/-- Strict UTF-8 decoding of a byte list starting at byte offset `pos`,
with CPython's validity rules: no overlong encodings, no surrogates,
nothing above U+10FFFF. -/
def utf8DecodeFrom : Nat → List Nat → Except UnicodeDecodeErr (List Char)
  | _, [] => .ok []
  | pos, b :: bs =>
    if b < 0x80 then
      (utf8DecodeFrom (pos + 1) bs).map (Char.ofNat b :: ·)
    else if b < 0xC2 then .error ⟨b, pos, "invalid start byte"⟩
    else if b < 0xE0 then
      match bs with
      | [] => .error ⟨b, pos, "unexpected end of data"⟩
      | b2 :: bs2 =>
        if 0x80 ≤ b2 ∧ b2 < 0xC0 then
          (utf8DecodeFrom (pos + 2) bs2).map
            (Char.ofNat ((b - 0xC0) * 64 + (b2 - 0x80)) :: ·)
        else .error ⟨b, pos, "invalid continuation byte"⟩
    else if b < 0xF0 then
      match bs with
      | [] => .error ⟨b, pos, "unexpected end of data"⟩
      | b2 :: bs2 =>
        if (if b = 0xE0 then 0xA0 else 0x80) ≤ b2 ∧
            b2 < (if b = 0xED then 0xA0 else 0xC0) then
          match bs2 with
          | [] => .error ⟨b, pos, "unexpected end of data"⟩
          | b3 :: bs3 =>
            if 0x80 ≤ b3 ∧ b3 < 0xC0 then
              (utf8DecodeFrom (pos + 3) bs3).map
                (Char.ofNat ((b - 0xE0) * 4096 + (b2 - 0x80) * 64 + (b3 - 0x80)) :: ·)
            else .error ⟨b, pos, "invalid continuation byte"⟩
        else .error ⟨b, pos, "invalid continuation byte"⟩
    else if b < 0xF5 then
      match bs with
      | [] => .error ⟨b, pos, "unexpected end of data"⟩
      | b2 :: bs2 =>
        if (if b = 0xF0 then 0x90 else 0x80) ≤ b2 ∧
            b2 < (if b = 0xF4 then 0x90 else 0xC0) then
          match bs2 with
          | [] => .error ⟨b, pos, "unexpected end of data"⟩
          | b3 :: bs3 =>
            if 0x80 ≤ b3 ∧ b3 < 0xC0 then
              match bs3 with
              | [] => .error ⟨b, pos, "unexpected end of data"⟩
              | b4 :: bs4 =>
                if 0x80 ≤ b4 ∧ b4 < 0xC0 then
                  (utf8DecodeFrom (pos + 4) bs4).map
                    (Char.ofNat ((b - 0xF0) * 262144 + (b2 - 0x80) * 4096 +
                      (b3 - 0x80) * 64 + (b4 - 0x80)) :: ·)
                else .error ⟨b, pos, "invalid continuation byte"⟩
            else .error ⟨b, pos, "invalid continuation byte"⟩
        else .error ⟨b, pos, "invalid continuation byte"⟩
    else .error ⟨b, pos, "invalid start byte"⟩

/-- `bytes.decode("utf-8")`: the decoded string, or the raised
`UnicodeDecodeError`. -/
def utf8Decode (content : Bytes) : Except UnicodeDecodeErr String :=
  (utf8DecodeFrom 0 content).map String.mk

/-- The whitespace characters recognized by Python's `str.split()`
(ASCII range). -/
def isPySpace (c : Char) : Bool :=
  c = ' ' || c = '\t' || c = '\n' || c = '\r' || c = '\x0b' || c = '\x0c'

/-- Accumulator worker for `pySplitWs`. -/
def pySplitWsAux : List Char → List Char → List String
  | acc, [] => if acc = [] then [] else [String.mk acc.reverse]
  | acc, c :: cs =>
    if isPySpace c then
      if acc = [] then pySplitWsAux [] cs
      else String.mk acc.reverse :: pySplitWsAux [] cs
    else pySplitWsAux (c :: acc) cs

/-- Python `s.split()` (no argument): split on runs of whitespace,
discarding empty tokens. -/
def pySplitWs (s : String) : List String := pySplitWsAux [] s.toList

/-- `len(text.split())`, the word count stored in a document record. -/
def wordCount (text : String) : Nat := (pySplitWs text).length

/-- Python `s.strip(chars)`: remove characters of `chars` from both ends. -/
def pyStrip (chars : List Char) (s : String) : String :=
  String.mk
    (((s.toList.dropWhile (chars.contains ·)).reverse.dropWhile
      (chars.contains ·)).reverse)

/-- Python `s.split(sep)` for a one-character separator: splits at every
occurrence, keeping empty pieces (`"a..b"` gives `["a", "", "b"]`). -/
def pySplitOn (sep : Char) : List Char → List (List Char)
  | [] => [[]]
  | c :: rest =>
    if c = sep then [] :: pySplitOn sep rest
    else
      match pySplitOn sep rest with
      | t :: ts => (c :: t) :: ts
      | [] => [[c]]

/-- Python `s.lower()` (ASCII case mapping, which covers every string
this program lowercases). -/
def pyLower (s : String) : String := String.mk (s.toList.map Char.toLower)

/-- Python `s.upper()` (ASCII case mapping). -/
def pyUpper (s : String) : String := String.mk (s.toList.map Char.toUpper)

/-- Python `sep.join(xs)`. -/
def pyJoin (sep : String) : List String → String
  | [] => ""
  | [x] => x
  | x :: xs => x ++ sep ++ pyJoin sep xs

/-- Strip characters of `chars` from the right end only (used to state the
claim's reading of the mind-map token normalization, not by the program). -/
def pyStripTrailing (chars : List Char) (s : String) : String :=
  String.mk ((s.toList.reverse.dropWhile (chars.contains ·)).reverse)

/-! ### The document record and the fingerprint cache -/

/-- The `doc_info` dictionary built by `DocumentProcessor.process_document`
(`src/app.py` lines 206-214). -/
structure DocInfo where
  filename : String
  file_type : String
  file_size : Nat
  text_content : String
  word_count : Nat
  processed_at : String
  file_hash : String
deriving DecidableEq, Repr

/-- `st.session_state.processed_documents`: a dictionary from content hash
to document record, modelled as an association list in insertion order. -/
abbrev Cache := List (String × DocInfo)

/-! ### Extractors (`src/app.py` lines 74-175)

The pdf/docx/pptx/image extractors call external parsing libraries
(`PyPDF2`, `python-docx`, `python-pptx`, `pytesseract`); each library call
is modelled as an oracle returning either its parsed payload or the string
of a raised exception, and the extractor's `try`/`except` wrapper is the
`match` on that result.  `PDF_AVAILABLE` (line 20) is the `libsAvailable`
flag. -/

/-- Oracles for the external parsing libraries. -/
structure ExtractionEnv where
  libsAvailable : Bool
  pdfPages : Bytes → Except String (List String)
  docxParagraphs : Bytes → Except String (List String)
  pptxSlides : Bytes → Except String (List (List (Option String)))
  imageOcr : Bytes → Except String String

/-- `DocumentProcessor.extract_text_from_pdf`: page texts concatenated,
each followed by a newline; failures folded into an error string. -/
def extract_text_from_pdf (env : ExtractionEnv) (file_content : Bytes) : String :=
  if !env.libsAvailable then
    "PDF processing not available. Please install required libraries."
  else
    match env.pdfPages file_content with
    | .ok pages => pages.foldl (fun text p => text ++ p ++ "\n") ""
    | .error e => "Error processing PDF: " ++ e

/-- `DocumentProcessor.extract_text_from_docx`: paragraph texts
concatenated, each followed by a newline. -/
def extract_text_from_docx (env : ExtractionEnv) (file_content : Bytes) : String :=
  if !env.libsAvailable then
    "DOCX processing not available. Please install required libraries."
  else
    match env.docxParagraphs file_content with
    | .ok paras => paras.foldl (fun text p => text ++ p ++ "\n") ""
    | .error e => "Error processing DOCX: " ++ e

/-- `DocumentProcessor.extract_text_from_pptx`: per slide, a
`"Slide {n}:"` header, each shape text (when present) on its own line,
and a trailing blank line. -/
def extract_text_from_pptx (env : ExtractionEnv) (file_content : Bytes) : String :=
  if !env.libsAvailable then
    "PPTX processing not available. Please install required libraries."
  else
    match env.pptxSlides file_content with
    | .ok slides =>
      (slides.enumFrom 1).foldl
        (fun text p =>
          let slideText := p.2.foldl
            (fun t sh => match sh with | some s => t ++ s ++ "\n" | none => t) ""
          text ++ "Slide " ++ toString p.1 ++ ":\n" ++ slideText ++ "\n") ""
    | .error e => "Error processing PPTX: " ++ e

/-- `DocumentProcessor.extract_text_from_image`: OCR text, failures folded
into an error string. -/
def extract_text_from_image (env : ExtractionEnv) (file_content : Bytes) : String :=
  if !env.libsAvailable then
    "Image processing not available. Please install required libraries."
  else
    match env.imageOcr file_content with
    | .ok t => t
    | .error e =>
      "Error processing image: " ++ e ++ ". Make sure tesseract is installed."

/-! ### `DocumentProcessor.process_markdown` (`src/app.py` lines 161-175)

Decodes the bytes as UTF-8 and then applies, in order, the four
`re.sub` passes of the source:
`r"#+ "` removed, `r"\*\*(.*?)\*\*"` and `r"\*(.*?)\*"` replaced by the
group, and `r"\[([^\]]+)\]\([^)]+\)"` replaced by the link text.
Each pass is embedded as a left-to-right scanner with the same
leftmost-match, continue-after-the-replacement semantics as `re.sub`
(`.` does not match a newline; a character class such as `[^)]` does). -/

/-- The dropped-prefix form of `List.dropWhile` never grows the list. -/
theorem dropWhile_length_le {α : Type} (p : α → Bool) (l : List α) :
    (l.dropWhile p).length ≤ l.length := by
  induction l with
  | nil => simp
  | cons a l ih =>
    rw [List.dropWhile_cons]
    split
    · simp only [List.length_cons]; omega
    · simp

/-- One `re.sub(r"#+ ", "", text)` pass: at a `#`, a maximal run of `#`
followed by a space is deleted; otherwise scanning advances. -/
def stripMdHeaders : List Char → List Char
  | [] => []
  | c :: rest =>
    if c = '#' then
      match h : rest.dropWhile (· = '#') with
      | ' ' :: tail => stripMdHeaders tail
      | other => c :: (rest.takeWhile (· = '#') ++ stripMdHeaders other)
    else c :: stripMdHeaders rest
termination_by l => l.length
decreasing_by
  · have h1 := dropWhile_length_le (fun x => decide (x = '#')) rest
    rw [h] at h1
    simp only [List.length_cons] at h1 ⊢
    omega
  · have h1 := dropWhile_length_le (fun x => decide (x = '#')) rest
    rw [h] at h1
    simp only [List.length_cons]
    omega
  · simp only [List.length_cons]
    omega

/-- Search for the lazily-nearest `**` closer of a bold span: returns the
text before it and the text after it, or `none` when a newline intervenes
or no `**` follows (so `\*\*(.*?)\*\*` has no match from this opener). -/
def mdBoldClose : List Char → Option (List Char × List Char)
  | [] => none
  | c :: rest =>
    if c = '\n' then none
    else if c = '*' ∧ rest.head? = some '*' then some ([], rest.tail)
    else (mdBoldClose rest).map (fun p => (c :: p.1, p.2))

theorem mdBoldClose_length (l : List Char) :
    ∀ i t, mdBoldClose l = some (i, t) → t.length + 2 ≤ l.length := by
  induction l with
  | nil => intro i t h; simp [mdBoldClose] at h
  | cons c rest ih =>
    intro i t h
    simp only [mdBoldClose] at h
    split at h
    · cases h
    split at h
    · rename_i hcond
      cases rest with
      | nil => simp at hcond
      | cons r rs =>
        simp only [Option.some.injEq, Prod.mk.injEq, List.tail_cons] at h
        obtain ⟨_, ht⟩ := h
        subst ht
        simp only [List.length_cons]
        omega
    · rw [Option.map_eq_some'] at h
      obtain ⟨p, hp, he⟩ := h
      cases he
      have := ih p.1 p.2 hp
      simp only [List.length_cons]
      omega

/-- One `re.sub(r"\*\*(.*?)\*\*", r"\1", text)` pass. -/
def stripMdBold : List Char → List Char
  | [] => []
  | '*' :: '*' :: rest =>
    match h : mdBoldClose rest with
    | some (inner, tail) => inner ++ stripMdBold tail
    | none => '*' :: '*' :: stripMdBold rest
  | c :: rest => c :: stripMdBold rest
termination_by l => l.length
decreasing_by
  · have := mdBoldClose_length rest inner tail h
    simp only [List.length_cons]
    omega
  · simp only [List.length_cons]
    omega
  · simp only [List.length_cons]
    omega

/-- Search for the lazily-nearest `*` closer of an italic span. -/
def mdItalicClose : List Char → Option (List Char × List Char)
  | [] => none
  | c :: rest =>
    if c = '*' then some ([], rest)
    else if c = '\n' then none
    else (mdItalicClose rest).map (fun p => (c :: p.1, p.2))

theorem mdItalicClose_length (l : List Char) :
    ∀ i t, mdItalicClose l = some (i, t) → t.length + 1 ≤ l.length := by
  induction l with
  | nil => intro i t h; simp [mdItalicClose] at h
  | cons c rest ih =>
    intro i t h
    simp only [mdItalicClose] at h
    split at h
    · simp only [Option.some.injEq, Prod.mk.injEq] at h
      obtain ⟨_, ht⟩ := h
      subst ht
      simp
    split at h
    · cases h
    · rw [Option.map_eq_some'] at h
      obtain ⟨p, hp, he⟩ := h
      cases he
      have := ih p.1 p.2 hp
      simp only [List.length_cons]
      omega

/-- One `re.sub(r"\*(.*?)\*", r"\1", text)` pass. -/
def stripMdItalic : List Char → List Char
  | [] => []
  | '*' :: rest =>
    match h : mdItalicClose rest with
    | some (inner, tail) => inner ++ stripMdItalic tail
    | none => '*' :: stripMdItalic rest
  | c :: rest => c :: stripMdItalic rest
termination_by l => l.length
decreasing_by
  · have := mdItalicClose_length rest inner tail h
    simp only [List.length_cons]
    omega
  · simp only [List.length_cons]
    omega
  · simp only [List.length_cons]
    omega

/-- One `re.sub(r"\[([^\]]+)\]\([^)]+\)", r"\1", text)` pass: at a `[`,
a non-empty bracket text up to the first `]`, immediately followed by a
non-empty parenthesized target, is replaced by the bracket text. -/
def stripMdLinks : List Char → List Char
  | [] => []
  | '[' :: rest =>
    match h : rest.dropWhile (· != ']') with
    | ']' :: '(' :: rest2 =>
      match h2 : rest2.dropWhile (· != ')') with
      | ')' :: tail =>
        if rest.takeWhile (· != ']') ≠ [] ∧ rest2.takeWhile (· != ')') ≠ [] then
          rest.takeWhile (· != ']') ++ stripMdLinks tail
        else '[' :: stripMdLinks rest
      | _ => '[' :: stripMdLinks rest
    | _ => '[' :: stripMdLinks rest
  | c :: rest => c :: stripMdLinks rest
termination_by l => l.length
decreasing_by
  · have h1 := dropWhile_length_le (fun x => x != ']') rest
    rw [h] at h1
    have h3 := dropWhile_length_le (fun x => x != ')') rest2
    rw [h2] at h3
    simp only [List.length_cons] at h1 h3 ⊢
    omega
  · simp only [List.length_cons]; omega
  · simp only [List.length_cons]; omega
  · simp only [List.length_cons]; omega
  · simp only [List.length_cons]; omega

/-- `DocumentProcessor.process_markdown`: UTF-8 decode, then the four
formatting-removal passes; a decode failure is caught and folded into the
returned text. -/
def process_markdown (file_content : Bytes) : String :=
  match utf8Decode file_content with
  | .ok text =>
    String.mk (stripMdLinks (stripMdItalic (stripMdBold (stripMdHeaders text.toList))))
  | .error e => "Error processing markdown: " ++ uerrString e

/-! ### `DocumentProcessor.process_document` (`src/app.py` lines 177-219) -/

/-- `uploaded_file.name.lower().split(".")[-1]` (line 187). -/
def getFileExtension (name : String) : String :=
  String.mk ((pySplitOn '.' (name.toList.map Char.toLower)).getLastD [])

/-- The extension dispatch of `process_document` (lines 190-203), in the
source's `if`/`elif` order.  The `txt` branch is the bare
`file_content.decode("utf-8")`, whose decode error is NOT caught and
escapes as the `Except.error` case; every other branch is total. -/
def extract (env : ExtractionEnv) (file_extension : String) (file_content : Bytes) :
    Except UnicodeDecodeErr String :=
  if file_extension = "pdf" then .ok (extract_text_from_pdf env file_content)
  else if file_extension = "docx" then .ok (extract_text_from_docx env file_content)
  else if file_extension = "pptx" then .ok (extract_text_from_pptx env file_content)
  else if file_extension = "png" ∨ file_extension = "jpg" ∨ file_extension = "jpeg" then
    .ok (extract_text_from_image env file_content)
  else if file_extension = "md" then .ok (process_markdown file_content)
  else if file_extension = "txt" then utf8Decode file_content
  else .ok "Unsupported file type"

/-- `DocumentProcessor.process_document`: hash the bytes, return the
cached record on a hit, otherwise dispatch on the filename's extension,
build the `doc_info` record and insert it into the cache.  `processed_at`
stands for `datetime.datetime.now().isoformat()`; an uncaught
`UnicodeDecodeError` from the `txt` branch is the `Except.error` case. -/
def process_document (env : ExtractionEnv) (filename processed_at : String)
    (file_content : Bytes) (cache : Cache) :
    Except UnicodeDecodeErr (DocInfo × Cache) :=
  let file_hash := get_file_hash file_content
  match cache.lookup file_hash with
  | some doc => .ok (doc, cache)
  | none =>
    let file_extension := getFileExtension filename
    match extract env file_extension file_content with
    | .error e => .error e
    | .ok text =>
      let doc_info : DocInfo :=
        { filename := filename
          file_type := file_extension
          file_size := file_content.length
          text_content := text
          word_count := wordCount text
          processed_at := processed_at
          file_hash := file_hash }
      .ok (doc_info, cache ++ [(file_hash, doc_info)])

/-- `process_document` instrumented with an extraction call counter (the
injected call-counter of spec section 8): the counter advances exactly
when the extension dispatch runs, i.e. on a cache miss. -/
def process_document_instr (env : ExtractionEnv) (filename processed_at : String)
    (file_content : Bytes) (cache : Cache) (calls : Nat) :
    Except UnicodeDecodeErr (DocInfo × Cache × Nat) :=
  let file_hash := get_file_hash file_content
  match cache.lookup file_hash with
  | some doc => .ok (doc, cache, calls)
  | none =>
    let file_extension := getFileExtension filename
    match extract env file_extension file_content with
    | .error e => .error e
    | .ok text =>
      let doc_info : DocInfo :=
        { filename := filename
          file_type := file_extension
          file_size := file_content.length
          text_content := text
          word_count := wordCount text
          processed_at := processed_at
          file_hash := file_hash }
      .ok (doc_info, cache ++ [(file_hash, doc_info)], calls + 1)

/-! ### `ToolsProcessor` (`src/app.py` lines 274-343) -/

/-- The result of `ToolsProcessor.create_mindmap`. -/
structure MindMap where
  center : String
  nodes : List String
deriving DecidableEq, Repr

/-- The fixed stopword list `common_words` (line 286). -/
def common_words : List String :=
  ["the", "and", "or", "but", "in", "on", "at", "to", "for", "of",
   "with", "by", "is", "are", "was", "were", "be", "been", "have", "has",
   "had", "do", "does", "did", "will", "would", "should", "could", "may",
   "might", "must", "can", "shall"]

/-- The characters of `strip(".,!?\x22;")` at line 287. -/
def mindmapStripChars : List Char := ['.', ',', '!', '?', '"', ';']

/-- One step of `collections.Counter` construction: count the word,
first occurrences appended in encounter order. -/
def bumpCount : List (String × Nat) → String → List (String × Nat)
  | [], w => [(w, 1)]
  | (k, n) :: rest, w =>
    if k = w then (k, n + 1) :: rest else (k, n) :: bumpCount rest w

/-- `collections.Counter(ws)`: counts keyed in first-occurrence order. -/
def counterOf (ws : List String) : List (String × Nat) := ws.foldl bumpCount []

/-- Stable insertion into a descending-count list: a pair goes in front
of the first strictly-smaller-or-equal count, so that among equal counts
earlier (first-encountered) keys stay first. -/
def insertByCount (p : String × Nat) : List (String × Nat) → List (String × Nat)
  | [] => [p]
  | q :: l => if p.2 ≥ q.2 then p :: q :: l else q :: insertByCount p l

/-- `Counter.most_common n`: entries sorted by descending count, ties in
insertion (first-occurrence) order — CPython documents `most_common` as
`sorted(..., reverse=True)[:n]` with a stable sort. -/
def most_common (n : Nat) (ws : List String) : List (String × Nat) :=
  ((counterOf ws).foldr insertByCount []).take n

/-- `ToolsProcessor.create_mindmap` (lines 276-297): join all record
texts with spaces, split on whitespace, keep words whose raw length
exceeds 3 and whose lowercased raw form is not a stopword, then lowercase
and strip the punctuation characters from both ends, and take the 8 most
frequent results. -/
def create_mindmap (documents : List DocInfo) : MindMap :=
  if documents = [] then { center := "No Documents", nodes := [] }
  else
    let all_text := pyJoin " " (documents.map (·.text_content))
    let words := pySplitWs all_text
    let filtered_words :=
      (words.filter fun word =>
        word.length > 3 && !(common_words.contains (pyLower word))).map
        fun word => pyStrip mindmapStripChars (pyLower word)
    let top_words := (most_common 8 filtered_words).map (·.1)
    { center := "Analysis of " ++ toString documents.length ++ " Documents"
      nodes := top_words }

/-- One cluster of `ToolsProcessor.cluster_documents`. -/
structure Cluster where
  name : String
  documents : List DocInfo
deriving DecidableEq, Repr

/-- The `{"clusters": [...]}` result of `cluster_documents`. -/
structure ClusterResult where
  clusters : List Cluster
deriving DecidableEq, Repr

/-- One step of the grouping dictionary build of `cluster_documents`
(lines 306-311): append the record to its type's bucket, creating the
bucket at the end on first sight of the type. -/
def addToBucket (buckets : List (String × List DocInfo)) (ty : String)
    (doc : DocInfo) : List (String × List DocInfo) :=
  match buckets with
  | [] => [(ty, [doc])]
  | (k, ds) :: rest =>
    if k = ty then (k, ds ++ [doc]) :: rest
    else (k, ds) :: addToBucket rest ty doc

/-- `ToolsProcessor.cluster_documents` (lines 299-318): fewer than two
records give the single `"Single Document"` cluster; otherwise records
are grouped by `file_type` in first-seen order, each cluster named
`f"{file_type.upper()} Documents"`. -/
def cluster_documents (documents : List DocInfo) : ClusterResult :=
  if documents.length < 2 then
    { clusters := [{ name := "Single Document", documents := documents }] }
  else
    let buckets := documents.foldl (fun bs doc => addToBucket bs doc.file_type doc) []
    { clusters := buckets.map fun b =>
        { name := pyUpper b.1 ++ " Documents", documents := b.2 } }

/-- The fixed `base_prompts` list of `generate_prompts` (lines 323-332). -/
def base_prompts : List String :=
  ["What are the main themes discussed in these documents?",
   "Can you summarize the key findings?",
   "What are the most important conclusions?",
   "Are there any contradictions between the documents?",
   "What questions are left unanswered?",
   "What are the practical implications?",
   "How do these documents relate to each other?",
   "What evidence supports the main arguments?"]

/-- `ToolsProcessor.generate_prompts` (lines 320-343): the base list,
conditionally extended with a pdf question, a pptx question and a
multi-document question, truncated to the first 6 entries. -/
def generate_prompts (documents : List DocInfo) : List String :=
  let prompts := base_prompts
  let prompts :=
    if documents ≠ [] then
      let doc_types := documents.map (·.file_type)
      let prompts :=
        if doc_types.contains "pdf" then
          prompts ++ ["What are the key sections in the PDF documents?"]
        else prompts
      let prompts :=
        if doc_types.contains "pptx" then
          prompts ++ ["What are the main points from the presentations?"]
        else prompts
      let prompts :=
        if documents.length > 1 then
          prompts ++ ["Compare and contrast the different documents."]
        else prompts
      prompts
    else prompts
  prompts.take 6

/-- The closed set of supported extensions: the keys of
`SUPPORTED_FILE_TYPES` (`src/app.py` lines 33-42), which are exactly the
extensions the dispatch of `process_document` recognizes. -/
def supportedExtensions : List String :=
  ["pdf", "docx", "pptx", "txt", "md", "png", "jpg", "jpeg"]

/-! ### The claim-text reading of the mind-map pipeline -/

/-- `extractTopics` as the spec sentence reads: each whitespace-delimited
token is lowercased and stripped of TRAILING punctuation, and the length
and stopword filters are applied to the transformed token.  This follows
the claim's words, for comparison with `create_mindmap`, which filters on
the raw token first and strips punctuation from both ends. -/
def extractTopicsClaim (records : List DocInfo) : MindMap :=
  if records = [] then { center := "No Documents", nodes := [] }
  else
    let tokens := pySplitWs (pyJoin " " (records.map (·.text_content)))
    let transformed := tokens.map fun w => pyStripTrailing mindmapStripChars (pyLower w)
    let surviving := transformed.filter fun w =>
      w.length > 3 && !(common_words.contains w)
    { center := "Analysis of " ++ toString records.length ++ " Documents"
      nodes := (most_common 8 surviving).map (·.1) }

/-- The token pipeline `create_mindmap` actually runs: filter the raw
tokens (raw length over 3, lowercased raw form not a stopword), then
lowercase and strip the punctuation set from both ends. -/
def mindmapTokens (records : List DocInfo) : List String :=
  ((pySplitWs (pyJoin " " (records.map (·.text_content)))).filter fun w =>
    w.length > 3 && !(common_words.contains (pyLower w))).map
    fun w => pyStrip mindmapStripChars (pyLower w)

/-- One step of Python dictionary key collection: a key joins at the end
on first sight. -/
def addKey (ks : List String) (a : String) : List String :=
  if ks.contains a then ks else ks ++ [a]

/-- The key list of a Python dictionary built by inserting the given
keys in order: the distinct keys, in first-seen order. -/
def dictKeys (l : List String) : List String := l.foldl addKey []

/-- The count stored under a key of a counter association list
(0 when absent); used to state facts about `counterOf`. -/
def keyVal (l : List (String × Nat)) (k : String) : Nat :=
  ((l.find? fun p => p.1 == k).map Prod.snd).getD 0

/-- A concrete extraction environment used to instantiate universally
quantified statements (the oracles play no role on the exercised paths). -/
def sampleEnv : ExtractionEnv :=
  { libsAvailable := true
    pdfPages := fun _ => .ok ["page one", "page two"]
    docxParagraphs := fun _ => .ok ["first paragraph"]
    pptxSlides := fun _ => .ok [[some "title", none]]
    imageOcr := fun _ => .error "tesseract missing" }

/-- An extraction environment in which every external parsing library
raises, with messages typical of the real libraries; used to exercise
the failure-folding paths of the extractors. -/
def failEnv : ExtractionEnv :=
  { libsAvailable := true
    pdfPages := fun _ => .error "EOF marker not found"
    docxParagraphs := fun _ => .error "File is not a zip file"
    pptxSlides := fun _ => .error "Package not found"
    imageOcr := fun _ => .error "cannot identify image file" }

/-- The record built for the bytes of `"hi"` uploaded as `hi.txt`. -/
def c1Doc : DocInfo :=
  { filename := "hi.txt", file_type := "txt", file_size := 2,
    text_content := "hi", word_count := 1, processed_at := "t1",
    file_hash := get_file_hash [104, 105] }

/-- The record built for the empty byte string uploaded as `report.xyz`. -/
def c9Doc : DocInfo :=
  { filename := "report.xyz", file_type := "xyz", file_size := 0,
    text_content := "Unsupported file type", word_count := 3,
    processed_at := "t1", file_hash := get_file_hash [] }

/-- A record whose text is `"the. the. ,data ,data"`: its tokens expose
both differences between `create_mindmap` and the claim's pipeline. -/
def punctDoc : DocInfo :=
  { filename := "notes.txt", file_type := "txt", file_size := 21,
    text_content := "the. the. ,data ,data", word_count := 4,
    processed_at := "t0", file_hash := get_file_hash [] }

/-- A pdf record for instantiating the clustering statements. -/
def pdfDocA : DocInfo :=
  { filename := "a.pdf", file_type := "pdf", file_size := 1,
    text_content := "alpha", word_count := 1, processed_at := "t",
    file_hash := "h1" }

/-- A second pdf record for instantiating the clustering statements. -/
def pdfDocB : DocInfo :=
  { filename := "b.pdf", file_type := "pdf", file_size := 1,
    text_content := "beta", word_count := 1, processed_at := "t",
    file_hash := "h2" }

/-- A txt record for instantiating the clustering statements. -/
def txtDocC : DocInfo :=
  { filename := "c.txt", file_type := "txt", file_size := 1,
    text_content := "gamma", word_count := 1, processed_at := "t",
    file_hash := "h3" }

/-! ### Helper lemmas -/

/-- Looking up a freshly inserted key of the cache dictionary. -/
theorem lookup_append_self (σ : Cache) (k : String) (d : DocInfo)
    (h : σ.lookup k = none) : (σ ++ [(k, d)]).lookup k = some d := by
  induction σ with
  | nil => simp [List.lookup]
  | cons p σ ih =>
    cases p with
    | mk k2 d2 =>
      rw [List.cons_append]
      cases hbeq : k == k2 <;> simp only [List.lookup, hbeq] at h ⊢
      · exact ih h
      · exact absurd h (by simp)

/-- Every dispatch branch except `txt` returns a string (no exception). -/
theorem extract_ok_of_ne_txt (env : ExtractionEnv) (ext : String) (b : Bytes)
    (h : ext ≠ "txt") : ∃ text, extract env ext b = .ok text := by
  unfold extract
  split_ifs with h1 h2 h3 h4 h5 <;> exact ⟨_, rfl⟩

/-- An extension outside the supported set reaches the final `else`. -/
theorem extract_unsupported (env : ExtractionEnv) (ext : String) (b : Bytes)
    (h : ext ∉ supportedExtensions) :
    extract env ext b = .ok "Unsupported file type" := by
  simp only [supportedExtensions, List.mem_cons, List.not_mem_nil, or_false,
    not_or] at h
  obtain ⟨h1, h2, h3, h4, h5, h6, h7, h8⟩ := h
  unfold extract
  rw [if_neg h1, if_neg h2, if_neg h3, if_neg (by simp [h6, h7, h8]),
    if_neg h5, if_neg h4]

/-- `generate_prompts` truncates to 6 before any conditional entry (all
appended at index 8 or later) can surface. -/
theorem generate_prompts_eq_take_six (documents : List DocInfo) :
    generate_prompts documents = base_prompts.take 6 := by
  simp only [generate_prompts]
  split_ifs <;> rfl

/-- On a cache miss, `process_document` builds the record from whatever
text the dispatch returned, with `word_count` recomputed from it. -/
theorem process_document_miss (env : ExtractionEnv) (n t : String)
    (b : Bytes) (σ : Cache) (text : String)
    (hcold : σ.lookup (get_file_hash b) = none)
    (hx : extract env (getFileExtension n) b = .ok text) :
    process_document env n t b σ =
      .ok (⟨n, getFileExtension n, b.length, text, wordCount text, t,
          get_file_hash b⟩,
        σ ++ [(get_file_hash b,
          ⟨n, getFileExtension n, b.length, text, wordCount text, t,
            get_file_hash b⟩)]) := by
  simp only [process_document, hcold]
  rw [hx]

/-- `addKey` membership. -/
theorem mem_addKey {ks : List String} {a x : String} :
    x ∈ addKey ks a ↔ x ∈ ks ∨ x = a := by
  unfold addKey
  split
  · rename_i hc
    constructor
    · exact Or.inl
    · rintro (hx | rfl)
      · exact hx
      · exact List.mem_of_elem_eq_true hc
  · simp [List.mem_append]

/-- Keys collected by a fold of `addKey`, membership. -/
theorem mem_foldl_addKey (l : List String) :
    ∀ (acc : List String) (x : String),
      x ∈ l.foldl addKey acc ↔ x ∈ acc ∨ x ∈ l := by
  induction l with
  | nil => simp
  | cons b l ih =>
    intro acc x
    rw [List.foldl_cons, ih, mem_addKey, List.mem_cons]
    tauto

/-- `dictKeys` has the same members as its input. -/
theorem mem_dictKeys {l : List String} {x : String} :
    x ∈ dictKeys l ↔ x ∈ l := by
  rw [dictKeys, mem_foldl_addKey]
  simp

/-- `addKey` keeps the key list duplicate-free. -/
theorem nodup_addKey {ks : List String} (a : String) (h : ks.Nodup) :
    (addKey ks a).Nodup := by
  unfold addKey
  split
  · exact h
  · rename_i hc
    have : a ∉ ks := fun hm => hc (List.elem_eq_true_of_mem hm)
    simp [List.nodup_append, h, this]

/-- `dictKeys` is duplicate-free. -/
theorem nodup_dictKeys (l : List String) : (dictKeys l).Nodup := by
  rw [dictKeys]
  have : ∀ acc : List String, acc.Nodup → (l.foldl addKey acc).Nodup := by
    induction l with
    | nil => exact fun acc h => h
    | cons b l ih => exact fun acc h => ih (addKey acc b) (nodup_addKey b h)
  exact this [] List.nodup_nil

/-- `dictKeys` over an appended element steps by `addKey`. -/
theorem dictKeys_append (l : List String) (a : String) :
    dictKeys (l ++ [a]) = addKey (dictKeys l) a := by
  unfold dictKeys
  rw [List.foldl_append]
  rfl

/-- Appending a record whose type is already a bucket key updates exactly
that bucket (keys are duplicate-free, so the map form is exact). -/
theorem addToBucket_map_mem (K : List String) (F : String → List DocInfo)
    (t : String) (d : DocInfo) (hnd : K.Nodup) (ht : t ∈ K) :
    addToBucket (K.map fun ty => (ty, F ty)) t d =
      K.map fun ty => (ty, if ty = t then F ty ++ [d] else F ty) := by
  induction K with
  | nil => cases ht
  | cons k K ih =>
    rw [List.map_cons, List.map_cons]
    obtain ⟨hk, hnd2⟩ := List.nodup_cons.mp hnd
    unfold addToBucket
    by_cases hkt : k = t
    · subst hkt
      rw [if_pos rfl, if_pos rfl]
      congr 1
      apply List.map_congr_left
      intro ty hty
      rw [if_neg (by rintro rfl; exact hk hty)]
    · rw [if_neg hkt, if_neg hkt]
      have ht2 : t ∈ K := (List.mem_cons.mp ht).resolve_left fun he => hkt he.symm
      rw [ih hnd2 ht2]

/-- Appending a record of an unseen type creates its bucket at the end. -/
theorem addToBucket_map_not_mem (K : List String) (F : String → List DocInfo)
    (t : String) (d : DocInfo) (ht : t ∉ K) :
    addToBucket (K.map fun ty => (ty, F ty)) t d =
      (K.map fun ty => (ty, F ty)) ++ [(t, [d])] := by
  induction K with
  | nil => rfl
  | cons k K ih =>
    rw [List.map_cons]
    unfold addToBucket
    rw [if_neg (by rintro rfl; exact ht (List.mem_cons_self k K))]
    rw [ih fun h2 => ht (List.mem_cons_of_mem k h2)]
    rfl

/-- Filtering a one-record list by its own type keeps the record. -/
theorem filter_singleton_type_eq (d : DocInfo) (ty : String)
    (h : d.file_type = ty) :
    List.filter (fun x => x.file_type == ty) [d] = [d] := by
  simp [List.filter_cons, h]

/-- Filtering a one-record list by another type drops the record. -/
theorem filter_singleton_type_ne (d : DocInfo) (ty : String)
    (h : d.file_type ≠ ty) :
    List.filter (fun x => x.file_type == ty) [d] = [] := by
  simp [List.filter_cons, h]

/-- The grouping dictionary of `cluster_documents`, characterized: one
bucket per distinct `file_type` in first-seen order, each bucket holding
exactly the records of its type in input order. -/
theorem cluster_buckets_eq (documents : List DocInfo) :
    documents.foldl (fun bs d => addToBucket bs d.file_type d) [] =
      (dictKeys (documents.map (·.file_type))).map
        fun ty => (ty, documents.filter fun d => d.file_type == ty) := by
  induction documents using List.reverseRecOn with
  | nil => rfl
  | append_singleton docs d ih =>
    rw [List.foldl_append, List.foldl_cons, List.foldl_nil, ih,
      List.map_append, List.map_cons, List.map_nil, dictKeys_append]
    unfold addKey
    by_cases hc : (dictKeys (docs.map (·.file_type))).contains d.file_type
    · rw [if_pos hc]
      have ht : d.file_type ∈ dictKeys (docs.map (·.file_type)) :=
        List.mem_of_elem_eq_true hc
      rw [addToBucket_map_mem _ _ _ _ (nodup_dictKeys _) ht]
      apply List.map_congr_left
      intro ty hty
      rw [List.filter_append]
      by_cases hd : ty = d.file_type
      · rw [if_pos hd, filter_singleton_type_eq d ty hd.symm]
      · rw [if_neg hd, filter_singleton_type_ne d ty (fun h2 => hd h2.symm),
          List.append_nil]
    · rw [if_neg hc]
      have ht : d.file_type ∉ dictKeys (docs.map (·.file_type)) :=
        fun hm => hc (List.elem_eq_true_of_mem hm)
      rw [addToBucket_map_not_mem _ _ _ _ ht, List.map_append]
      congr 1
      · apply List.map_congr_left
        intro ty hty
        rw [List.filter_append]
        have hne : d.file_type ≠ ty := by rintro rfl; exact ht hty
        rw [filter_singleton_type_ne d ty hne, List.append_nil]
      · have hnm : d.file_type ∉ docs.map (·.file_type) :=
          fun hm => ht (mem_dictKeys.mpr hm)
        have h0 : List.filter (fun x => x.file_type == d.file_type) docs = [] := by
          rw [List.filter_eq_nil_iff]
          intro a ha hax
          exact hnm (List.mem_map.mpr ⟨a, ha, by simpa using hax⟩)
        rw [List.map_cons, List.map_nil, List.filter_append, h0,
          List.nil_append, filter_singleton_type_eq d d.file_type rfl]

/-- `bumpCount` steps the key list by `addKey`. -/
theorem bumpCount_keys (l : List (String × Nat)) (w : String) :
    (bumpCount l w).map Prod.fst = addKey (l.map Prod.fst) w := by
  induction l with
  | nil => rfl
  | cons p rest ih =>
    cases p with
    | mk k n =>
      unfold bumpCount
      by_cases hk : k = w
      · subst hk
        rw [if_pos rfl]
        unfold addKey
        rw [if_pos (by simp [List.contains_cons])]
        rfl
      · rw [if_neg hk, List.map_cons, List.map_cons, ih]
        unfold addKey
        rw [List.contains_cons]
        have hbeq : (w == k) = false := by
          simpa using fun he => hk he.symm
        rw [hbeq, Bool.false_or]
        split
        · rfl
        · rw [List.cons_append]

/-- The counter's keys are the distinct words in first-occurrence order. -/
theorem counterOf_keys (ws : List String) :
    (counterOf ws).map Prod.fst = dictKeys ws := by
  unfold counterOf dictKeys
  have : ∀ acc : List (String × Nat),
      (ws.foldl bumpCount acc).map Prod.fst =
        ws.foldl addKey (acc.map Prod.fst) := by
    induction ws with
    | nil => exact fun acc => rfl
    | cons w ws ih =>
      intro acc
      rw [List.foldl_cons, List.foldl_cons, ih, bumpCount_keys]
  exact this []

/-- Bumping a word increments its stored count. -/
theorem bumpCount_keyVal_same (l : List (String × Nat)) (w : String) :
    keyVal (bumpCount l w) w = keyVal l w + 1 := by
  induction l with
  | nil =>
    unfold bumpCount keyVal
    rw [List.find?_cons_of_pos _ (by simp)]
    rfl
  | cons p rest ih =>
    cases p with
    | mk k n =>
      unfold bumpCount
      by_cases hk : k = w
      · subst hk
        rw [if_pos rfl]
        unfold keyVal
        rw [List.find?_cons_of_pos _ (by simp), List.find?_cons_of_pos _ (by simp)]
        rfl
      · rw [if_neg hk]
        have hbeq : (k == w) = false := by simpa using hk
        unfold keyVal at ih ⊢
        rw [List.find?_cons_of_neg _ (by simp [hbeq]),
          List.find?_cons_of_neg _ (by simp [hbeq])]
        exact ih

/-- Bumping a word leaves every other stored count unchanged. -/
theorem bumpCount_keyVal_ne (l : List (String × Nat)) (w x : String)
    (h : x ≠ w) : keyVal (bumpCount l w) x = keyVal l x := by
  induction l with
  | nil =>
    unfold bumpCount keyVal
    rw [List.find?_cons_of_neg _ (by simpa using fun he => h he.symm)]
  | cons p rest ih =>
    cases p with
    | mk k n =>
      unfold bumpCount
      by_cases hk : k = w
      · subst hk
        rw [if_pos rfl]
        unfold keyVal
        have hbeq : (k == x) = false := by simpa using fun he => h he.symm
        rw [List.find?_cons_of_neg _ (by simp [hbeq]),
          List.find?_cons_of_neg _ (by simp [hbeq])]
      · rw [if_neg hk]
        by_cases hkx : k = x
        · subst hkx
          unfold keyVal
          rw [List.find?_cons_of_pos _ (by simp), List.find?_cons_of_pos _ (by simp)]
        · have hbeq : (k == x) = false := by simpa using hkx
          unfold keyVal at ih ⊢
          rw [List.find?_cons_of_neg _ (by simp [hbeq]),
            List.find?_cons_of_neg _ (by simp [hbeq])]
          exact ih

/-- The counter stores exactly the multiplicity of each word. -/
theorem counterOf_keyVal (ws : List String) (x : String) :
    keyVal (counterOf ws) x = ws.count x := by
  unfold counterOf
  have : ∀ acc : List (String × Nat),
      keyVal (ws.foldl bumpCount acc) x = keyVal acc x + ws.count x := by
    induction ws with
    | nil => intro acc; rw [List.foldl_nil, List.count_nil]; omega
    | cons w ws ih =>
      intro acc
      rw [List.foldl_cons, ih, List.count_cons]
      by_cases hxw : x = w
      · subst hxw
        rw [bumpCount_keyVal_same]
        simp only [beq_self_eq_true, if_true]
        omega
      · rw [bumpCount_keyVal_ne acc w x hxw]
        have hwx : (w == x) = false := by simpa using fun he => hxw he.symm
        rw [hwx]
        simp
  rw [this []]
  unfold keyVal
  simp

/-- With duplicate-free keys, `find?` on a member's key returns it. -/
theorem find?_self_of_keys_nodup (l : List (String × Nat))
    (h : (l.map Prod.fst).Nodup) :
    ∀ p ∈ l, (l.find? fun q => q.1 == p.1) = some p := by
  induction l with
  | nil => intro p hp; cases hp
  | cons q l ih =>
    rw [List.map_cons] at h
    obtain ⟨hq, hnd⟩ := List.nodup_cons.mp h
    intro p hp
    rcases List.mem_cons.mp hp with rfl | hp2
    · rw [List.find?_cons_of_pos _ (by simp)]
    · have hne : (q.1 == p.1) = false := by
        simp only [beq_eq_false_iff_ne, ne_eq]
        rintro he
        exact hq (he ▸ List.mem_map_of_mem Prod.fst hp2)
      rw [List.find?_cons_of_neg _ (by simp [hne])]
      exact ih hnd p hp2

/-- Every counter entry is a word of the input with its exact count. -/
theorem mem_counterOf (ws : List String) (p : String × Nat)
    (hp : p ∈ counterOf ws) : p.2 = ws.count p.1 ∧ p.1 ∈ ws := by
  have hnd : ((counterOf ws).map Prod.fst).Nodup := by
    rw [counterOf_keys]
    exact nodup_dictKeys ws
  have hfind := find?_self_of_keys_nodup (counterOf ws) hnd p hp
  constructor
  · have : keyVal (counterOf ws) p.1 = p.2 := by
      unfold keyVal
      rw [hfind]
      rfl
    rw [← this, counterOf_keyVal]
  · have : p.1 ∈ (counterOf ws).map Prod.fst := List.mem_map_of_mem Prod.fst hp
    rw [counterOf_keys] at this
    exact mem_dictKeys.mp this

/-- Stable insertion permutes with plain cons. -/
theorem insertByCount_perm (p : String × Nat) (l : List (String × Nat)) :
    List.Perm (insertByCount p l) (p :: l) := by
  induction l with
  | nil => exact List.Perm.refl _
  | cons q l ih =>
    unfold insertByCount
    split
    · exact List.Perm.refl _
    · exact ((ih.cons q).trans (List.Perm.swap p q l))

/-- The sorted counter is a permutation of the counter. -/
theorem sortDesc_perm (l : List (String × Nat)) :
    List.Perm (l.foldr insertByCount []) l := by
  induction l with
  | nil => exact List.Perm.refl _
  | cons p l ih =>
    rw [List.foldr_cons]
    exact (insertByCount_perm p _).trans (ih.cons p)

/-- Stable insertion preserves the descending-count invariant. -/
theorem insertByCount_pairwise (p : String × Nat) (l : List (String × Nat))
    (h : l.Pairwise fun a b => b.2 ≤ a.2) :
    (insertByCount p l).Pairwise fun a b => b.2 ≤ a.2 := by
  induction l with
  | nil => exact List.pairwise_singleton _ _
  | cons q l ih =>
    obtain ⟨hq, hl⟩ := List.pairwise_cons.mp h
    unfold insertByCount
    split
    · rename_i hpq
      refine List.pairwise_cons.mpr ⟨?_, h⟩
      intro x hx
      rcases List.mem_cons.mp hx with rfl | hx2
      · exact hpq
      · exact le_trans (hq x hx2) hpq
    · rename_i hpq
      refine List.pairwise_cons.mpr ⟨?_, ih hl⟩
      intro x hx
      have hx2 := (insertByCount_perm p l).mem_iff.mp hx
      rcases List.mem_cons.mp hx2 with rfl | hx3
      · omega
      · exact hq x hx3

/-- The sorted counter is descending in counts. -/
theorem sortDesc_pairwise (l : List (String × Nat)) :
    (l.foldr insertByCount []).Pairwise fun a b => b.2 ≤ a.2 := by
  induction l with
  | nil => simp
  | cons p l ih =>
    rw [List.foldr_cons]
    exact insertByCount_pairwise p _ ih

/-! ### Claim theorems -/

/-- **C1**: `contentHash` is the md5 digest of the raw bytes alone, so
identical bytes always hash alike.  Starting cold for this content, the
first upload builds and caches the record, running the extraction
dispatch exactly once (`k1 = k + 1`); afterwards (cache warm) any upload
of the same bytes — any filename, any extraction environment — is a
cache hit returning the stored record unchanged, with the extraction
call counter unchanged. -/
theorem process_document_content_identity
    (env : ExtractionEnv) (n1 t1 : String) (b : Bytes) (σ : Cache) (k : Nat)
    (r1 : DocInfo) (σ1 : Cache) (k1 : Nat)
    (hcold : σ.lookup (get_file_hash b) = none)
    (h : process_document_instr env n1 t1 b σ k = .ok (r1, σ1, k1)) :
    r1.file_hash = get_file_hash b ∧ k1 = k + 1 ∧
    ∀ (env2 : ExtractionEnv) (n2 t2 : String),
      process_document_instr env2 n2 t2 b σ1 k1 = .ok (r1, σ1, k1) := by
  simp only [process_document_instr, hcold] at h
  cases hx : extract env (getFileExtension n1) b with
  | error e => rw [hx] at h; exact absurd h (by simp)
  | ok text =>
    rw [hx] at h
    simp only [Except.ok.injEq, Prod.mk.injEq] at h
    obtain ⟨hr, hσ, hk⟩ := h
    subst hr
    subst hσ
    subst hk
    refine ⟨rfl, rfl, ?_⟩
    intro env2 n2 t2
    simp only [process_document_instr, lookup_append_self σ _ _ hcold]

/-- Witness for C1: the bytes of `"hi"` uploaded as `hi.txt` on an empty
cache, then re-uploaded under the different filename `HI.md` and a
different environment: the stored record comes back unchanged and the
extraction counter stays at 1. -/
theorem process_document_content_identity_witness :
    c1Doc.file_hash = get_file_hash [104, 105] ∧
    process_document_instr sampleEnv "HI.md" "t2" [104, 105]
        [(get_file_hash [104, 105], c1Doc)] 1 =
      .ok (c1Doc, [(get_file_hash [104, 105], c1Doc)], 1) := by
  have T := process_document_content_identity sampleEnv "hi.txt" "t1"
    [104, 105] [] 0 c1Doc [(get_file_hash [104, 105], c1Doc)] 1 rfl rfl
  exact ⟨T.1, T.2.2 sampleEnv "HI.md" "t2"⟩

/-- **C2** counterexample: for the byte `0xff` uploaded as `.txt`, the
bare `file_content.decode("utf-8")` of the `txt` branch is NOT wrapped in
any `try`/`except`, so the `UnicodeDecodeError` escapes
`process_document` to the caller instead of being folded into the
record's text. -/
theorem process_document_txt_decode_error_escapes :
    process_document sampleEnv "notes.txt" "t0" [0xff] [] =
      .error ⟨0xff, 0, "invalid start byte"⟩ := rfl

/-- **C2** (amended): every dispatch branch except `txt` is total, and a
failure of any extractor is caught at its boundary and folded into the
record: a raised pdf, docx, pptx or image library error `e` becomes the
record's text (`"Error processing PDF: " ++ e` and so on, exactly as the
`except` clauses format it), an `md` decode failure becomes
`"Error processing markdown: " ++ str(e)`, and in every case
`wordCount` is the word count of that error message; only the `txt`
branch propagates an invalid-UTF-8 decode error to the caller. -/
theorem extraction_failure_folding :
    (∀ (env : ExtractionEnv) (n t : String) (b : Bytes) (σ : Cache),
      getFileExtension n ≠ "txt" →
      ∃ r σ2, process_document env n t b σ = .ok (r, σ2)) ∧
    (∀ (env : ExtractionEnv) (n t : String) (b : Bytes) (σ : Cache) (e : String),
      getFileExtension n = "pdf" → env.libsAvailable = true →
      env.pdfPages b = .error e → σ.lookup (get_file_hash b) = none →
      ∃ r, process_document env n t b σ = .ok (r, σ ++ [(get_file_hash b, r)]) ∧
        r.text_content = "Error processing PDF: " ++ e ∧
        r.word_count = wordCount ("Error processing PDF: " ++ e)) ∧
    (∀ (env : ExtractionEnv) (n t : String) (b : Bytes) (σ : Cache) (e : String),
      getFileExtension n = "docx" → env.libsAvailable = true →
      env.docxParagraphs b = .error e → σ.lookup (get_file_hash b) = none →
      ∃ r, process_document env n t b σ = .ok (r, σ ++ [(get_file_hash b, r)]) ∧
        r.text_content = "Error processing DOCX: " ++ e ∧
        r.word_count = wordCount ("Error processing DOCX: " ++ e)) ∧
    (∀ (env : ExtractionEnv) (n t : String) (b : Bytes) (σ : Cache) (e : String),
      getFileExtension n = "pptx" → env.libsAvailable = true →
      env.pptxSlides b = .error e → σ.lookup (get_file_hash b) = none →
      ∃ r, process_document env n t b σ = .ok (r, σ ++ [(get_file_hash b, r)]) ∧
        r.text_content = "Error processing PPTX: " ++ e ∧
        r.word_count = wordCount ("Error processing PPTX: " ++ e)) ∧
    (∀ (env : ExtractionEnv) (n t : String) (b : Bytes) (σ : Cache) (e : String),
      getFileExtension n = "png" → env.libsAvailable = true →
      env.imageOcr b = .error e → σ.lookup (get_file_hash b) = none →
      ∃ r, process_document env n t b σ = .ok (r, σ ++ [(get_file_hash b, r)]) ∧
        r.text_content =
          "Error processing image: " ++ e ++ ". Make sure tesseract is installed." ∧
        r.word_count = wordCount
          ("Error processing image: " ++ e ++ ". Make sure tesseract is installed.")) ∧
    (∀ (env : ExtractionEnv) (n t : String) (b : Bytes) (σ : Cache)
      (e : UnicodeDecodeErr),
      getFileExtension n = "md" → σ.lookup (get_file_hash b) = none →
      utf8Decode b = .error e →
      ∃ r, process_document env n t b σ = .ok (r, σ ++ [(get_file_hash b, r)]) ∧
        r.text_content = "Error processing markdown: " ++ uerrString e ∧
        r.word_count = wordCount ("Error processing markdown: " ++ uerrString e)) ∧
    (∀ (env : ExtractionEnv) (n t : String) (b : Bytes) (σ : Cache)
      (e : UnicodeDecodeErr),
      getFileExtension n = "txt" → σ.lookup (get_file_hash b) = none →
      utf8Decode b = .error e →
      process_document env n t b σ = .error e) := by
  refine ⟨?_, ?_, ?_, ?_, ?_, ?_, ?_⟩
  · intro env n t b σ hne
    cases hl : σ.lookup (get_file_hash b) with
    | some doc => exact ⟨doc, σ, by simp only [process_document, hl]⟩
    | none =>
      obtain ⟨text, hx⟩ := extract_ok_of_ne_txt env (getFileExtension n) b hne
      exact ⟨_, _, process_document_miss env n t b σ text hl hx⟩
  · intro env n t b σ e hext hlib he hcold
    have hfold : extract_text_from_pdf env b = "Error processing PDF: " ++ e := by
      unfold extract_text_from_pdf
      rw [hlib, he]
      rfl
    have hx : extract env (getFileExtension n) b =
        .ok ("Error processing PDF: " ++ e) := by
      rw [hext, show extract env "pdf" b = .ok (extract_text_from_pdf env b)
        from rfl, hfold]
    exact ⟨_, process_document_miss env n t b σ _ hcold hx, rfl, rfl⟩
  · intro env n t b σ e hext hlib he hcold
    have hfold : extract_text_from_docx env b = "Error processing DOCX: " ++ e := by
      unfold extract_text_from_docx
      rw [hlib, he]
      rfl
    have hx : extract env (getFileExtension n) b =
        .ok ("Error processing DOCX: " ++ e) := by
      rw [hext, show extract env "docx" b = .ok (extract_text_from_docx env b)
        from rfl, hfold]
    exact ⟨_, process_document_miss env n t b σ _ hcold hx, rfl, rfl⟩
  · intro env n t b σ e hext hlib he hcold
    have hfold : extract_text_from_pptx env b = "Error processing PPTX: " ++ e := by
      unfold extract_text_from_pptx
      rw [hlib, he]
      rfl
    have hx : extract env (getFileExtension n) b =
        .ok ("Error processing PPTX: " ++ e) := by
      rw [hext, show extract env "pptx" b = .ok (extract_text_from_pptx env b)
        from rfl, hfold]
    exact ⟨_, process_document_miss env n t b σ _ hcold hx, rfl, rfl⟩
  · intro env n t b σ e hext hlib he hcold
    have hfold : extract_text_from_image env b =
        "Error processing image: " ++ e ++ ". Make sure tesseract is installed." := by
      unfold extract_text_from_image
      rw [hlib, he]
      rfl
    have hx : extract env (getFileExtension n) b =
        .ok ("Error processing image: " ++ e ++
          ". Make sure tesseract is installed.") := by
      rw [hext, show extract env "png" b = .ok (extract_text_from_image env b)
        from rfl, hfold]
    exact ⟨_, process_document_miss env n t b σ _ hcold hx, rfl, rfl⟩
  · intro env n t b σ e hmd hcold he
    have hpm : process_markdown b = "Error processing markdown: " ++ uerrString e := by
      unfold process_markdown
      rw [he]
    have hx : extract env (getFileExtension n) b =
        .ok ("Error processing markdown: " ++ uerrString e) := by
      rw [hmd, show extract env "md" b = .ok (process_markdown b) from rfl, hpm]
    exact ⟨_, process_document_miss env n t b σ _ hcold hx, rfl, rfl⟩
  · intro env n t b σ e htxt hcold he
    have hx : extract env (getFileExtension n) b = .error e := by
      rw [htxt, show extract env "txt" b = utf8Decode b from rfl, he]
    simp only [process_document, hcold]
    rw [hx]

/-- Witness for C2: under `failEnv`, whose library oracles all raise,
each of the pdf, docx, pptx and image branches folds its library error
into the record's text; the md branch folds the decode error of the
byte `0xff`; the txt branch propagates it. -/
theorem extraction_failure_folding_witness :
    (∃ r σ2, process_document failEnv "deck.pptx" "t0" [1, 2] [] = .ok (r, σ2)) ∧
    (∃ r, process_document failEnv "doc.pdf" "t0" [1] [] =
        .ok (r, [(get_file_hash [1], r)]) ∧
      r.text_content = "Error processing PDF: " ++ "EOF marker not found" ∧
      r.word_count = wordCount ("Error processing PDF: " ++ "EOF marker not found")) ∧
    (∃ r, process_document failEnv "memo.docx" "t0" [2] [] =
        .ok (r, [(get_file_hash [2], r)]) ∧
      r.text_content = "Error processing DOCX: " ++ "File is not a zip file" ∧
      r.word_count =
        wordCount ("Error processing DOCX: " ++ "File is not a zip file")) ∧
    (∃ r, process_document failEnv "slides.pptx" "t0" [3] [] =
        .ok (r, [(get_file_hash [3], r)]) ∧
      r.text_content = "Error processing PPTX: " ++ "Package not found" ∧
      r.word_count = wordCount ("Error processing PPTX: " ++ "Package not found")) ∧
    (∃ r, process_document failEnv "scan.png" "t0" [4] [] =
        .ok (r, [(get_file_hash [4], r)]) ∧
      r.text_content = "Error processing image: " ++ "cannot identify image file" ++
        ". Make sure tesseract is installed." ∧
      r.word_count = wordCount ("Error processing image: " ++
        "cannot identify image file" ++ ". Make sure tesseract is installed.")) ∧
    (∃ r, process_document failEnv "readme.md" "t0" [255] [] =
        .ok (r, [(get_file_hash [255], r)]) ∧
      r.text_content =
        "Error processing markdown: " ++ uerrString ⟨255, 0, "invalid start byte"⟩ ∧
      r.word_count =
        wordCount ("Error processing markdown: " ++
          uerrString ⟨255, 0, "invalid start byte"⟩)) ∧
    process_document failEnv "notes2.txt" "t0" [255] [] =
      .error ⟨255, 0, "invalid start byte"⟩ :=
  ⟨extraction_failure_folding.1 failEnv "deck.pptx" "t0" [1, 2] [] (by decide),
   extraction_failure_folding.2.1 failEnv "doc.pdf" "t0" [1] []
     "EOF marker not found" rfl rfl rfl rfl,
   extraction_failure_folding.2.2.1 failEnv "memo.docx" "t0" [2] []
     "File is not a zip file" rfl rfl rfl rfl,
   extraction_failure_folding.2.2.2.1 failEnv "slides.pptx" "t0" [3] []
     "Package not found" rfl rfl rfl rfl,
   extraction_failure_folding.2.2.2.2.1 failEnv "scan.png" "t0" [4] []
     "cannot identify image file" rfl rfl rfl rfl,
   extraction_failure_folding.2.2.2.2.2.1 failEnv "readme.md" "t0" [255] []
     ⟨255, 0, "invalid start byte"⟩ rfl rfl rfl,
   extraction_failure_folding.2.2.2.2.2.2 failEnv "notes2.txt" "t0" [255] []
     ⟨255, 0, "invalid start byte"⟩ rfl rfl rfl⟩

/-- **C6**: an extension outside the supported set reaches the final
`else` of the dispatch: `extract` returns the literal
`"Unsupported file type"` and (on a cold cache) the built record carries
that text with `wordCount` the word count of the literal, which is 3. -/
theorem extract_unsupported_extension
    (env : ExtractionEnv) (n t : String) (b : Bytes) (σ : Cache)
    (h1 : getFileExtension n ∉ supportedExtensions)
    (h2 : σ.lookup (get_file_hash b) = none) :
    extract env (getFileExtension n) b = .ok "Unsupported file type" ∧
    ∃ r : DocInfo,
      process_document env n t b σ = .ok (r, σ ++ [(get_file_hash b, r)]) ∧
      r.text_content = "Unsupported file type" ∧
      r.word_count = wordCount "Unsupported file type" ∧
      r.word_count = 3 := by
  have hx := extract_unsupported env (getFileExtension n) b h1
  have h3 : wordCount "Unsupported file type" = 3 := by decide
  refine ⟨hx,
    { filename := n, file_type := getFileExtension n, file_size := b.length,
      text_content := "Unsupported file type",
      word_count := wordCount "Unsupported file type",
      processed_at := t, file_hash := get_file_hash b },
    ?_, rfl, rfl, h3⟩
  simp only [process_document, h2]
  rw [hx]

theorem extract_unsupported_extension_witness :
    extract sampleEnv (getFileExtension "data.xyz") [7] = .ok "Unsupported file type" ∧
    ∃ r : DocInfo,
      process_document sampleEnv "data.xyz" "t0" [7] [] =
        .ok (r, [(get_file_hash [7], r)]) ∧
      r.text_content = "Unsupported file type" ∧
      r.word_count = wordCount "Unsupported file type" ∧
      r.word_count = 3 :=
  extract_unsupported_extension sampleEnv "data.xyz" "t0" [7] [] (by decide) rfl

/-- **C7**: the empty byte string uploaded with a `.txt` extension on a
cold cache decodes to the empty string; the record has `text = ""` and
`wordCount = 0`. -/
theorem process_document_empty_txt
    (env : ExtractionEnv) (n t : String) (σ : Cache)
    (h1 : getFileExtension n = "txt")
    (h2 : σ.lookup (get_file_hash []) = none) :
    ∃ r : DocInfo,
      process_document env n t [] σ = .ok (r, σ ++ [(get_file_hash [], r)]) ∧
      r.text_content = "" ∧ r.word_count = 0 := by
  have hx : extract env (getFileExtension n) [] = .ok "" := by
    rw [h1]
    rfl
  refine ⟨⟨n, getFileExtension n, 0, "", wordCount "", t, get_file_hash []⟩,
    ?_, rfl, rfl⟩
  simp only [process_document, h2]
  rw [hx]
  rfl

theorem process_document_empty_txt_witness :
    ∃ r : DocInfo,
      process_document sampleEnv "empty.txt" "t0" [] [] =
        .ok (r, [(get_file_hash [], r)]) ∧
      r.text_content = "" ∧ r.word_count = 0 :=
  process_document_empty_txt sampleEnv "empty.txt" "t0" [] rfl rfl

/-- **C8**: `create_mindmap` on the empty record list returns exactly
`{center := "No Documents", nodes := []}`. -/
theorem create_mindmap_empty :
    create_mindmap [] = { center := "No Documents", nodes := [] } := rfl

/-- **C9**: the cache lookup happens before the extension is parsed, so
once a record for some bytes is stored, re-uploading the same bytes
returns that record verbatim — filename, file type and text included —
for every new filename and environment; in particular bytes first seen
under an unsupported `.xyz` name are bound to an
`"Unsupported file type"` record, which a later `.txt` re-upload gets
back instead of decoded text. -/
theorem cache_identity_by_content
    (env : ExtractionEnv) (n1 t1 : String) (b : Bytes) (σ : Cache)
    (r1 : DocInfo) (σ1 : Cache)
    (h : process_document env n1 t1 b σ = .ok (r1, σ1)) :
    (∀ (env2 : ExtractionEnv) (n2 t2 : String),
      process_document env2 n2 t2 b σ1 = .ok (r1, σ1)) ∧
    (σ.lookup (get_file_hash b) = none → getFileExtension n1 = "xyz" →
      r1.file_type = "xyz" ∧ r1.text_content = "Unsupported file type") := by
  cases hl : σ.lookup (get_file_hash b) with
  | some doc =>
    simp only [process_document, hl, Except.ok.injEq, Prod.mk.injEq] at h
    obtain ⟨hr, hσ⟩ := h
    subst hr
    subst hσ
    refine ⟨?_, ?_⟩
    · intro env2 n2 t2
      simp only [process_document, hl]
    · intro hnone _
      exact Option.noConfusion hnone
  | none =>
    simp only [process_document, hl] at h
    cases hx : extract env (getFileExtension n1) b with
    | error e => rw [hx] at h; exact absurd h (by simp)
    | ok text =>
      rw [hx] at h
      simp only [Except.ok.injEq, Prod.mk.injEq] at h
      obtain ⟨hr, hσ⟩ := h
      subst hr
      subst hσ
      refine ⟨?_, ?_⟩
      · intro env2 n2 t2
        simp only [process_document, lookup_append_self σ _ _ hl]
      · intro _ hxyz
        rw [hxyz, extract_unsupported env "xyz" b (by decide)] at hx
        simp only [Except.ok.injEq] at hx
        subst hx
        exact ⟨hxyz, rfl⟩

/-- Witness for C9: empty bytes first uploaded as `report.xyz` on an
empty cache; the re-upload as `report.txt` returns the bound
`"Unsupported file type"` record instead of the decoded empty text. -/
theorem cache_identity_by_content_witness :
    process_document sampleEnv "report.txt" "t2" []
        [(get_file_hash [], c9Doc)] =
      .ok (c9Doc, [(get_file_hash [], c9Doc)]) ∧
    c9Doc.file_type = "xyz" ∧ c9Doc.text_content = "Unsupported file type" := by
  have T := cache_identity_by_content sampleEnv "report.xyz" "t1" [] []
    c9Doc [(get_file_hash [], c9Doc)] rfl
  exact ⟨T.1 sampleEnv "report.txt" "t2", T.2 rfl rfl⟩

/-- **C4** counterexample: the empty record list has no pdf or pptx
record and at most one element, yet the returned prompts do not include
all of the generic base prompts: the seventh base prompt is cut off by
the truncation to 6. -/
theorem generate_prompts_base_prompt_missing :
    (∀ d ∈ ([] : List DocInfo), d.file_type ≠ "pdf" ∧ d.file_type ≠ "pptx") ∧
    ([] : List DocInfo).length ≤ 1 ∧
    "How do these documents relate to each other?" ∈ base_prompts ∧
    "How do these documents relate to each other?" ∉ generate_prompts [] ∧
    (generate_prompts []).length ≤ 6 := by decide

/-- **C4** (amended): `suggestPrompts` returns at most 6 entries, and
with no pdf or pptx record and at most one record it returns exactly the
first 6 generic base prompts (so every returned entry is a generic base
prompt, but the last two base prompts are never included). -/
theorem generate_prompts_at_most_six (documents : List DocInfo) :
    (generate_prompts documents).length ≤ 6 ∧
    ((∀ d ∈ documents, d.file_type ≠ "pdf" ∧ d.file_type ≠ "pptx") →
      documents.length ≤ 1 →
      generate_prompts documents = base_prompts.take 6) := by
  rw [generate_prompts_eq_take_six documents]
  exact ⟨by decide, fun _ _ => rfl⟩

theorem generate_prompts_at_most_six_witness :
    (generate_prompts []).length ≤ 6 ∧
    generate_prompts [] = base_prompts.take 6 :=
  ⟨(generate_prompts_at_most_six []).1,
   (generate_prompts_at_most_six []).2 (by simp) (by decide)⟩

/-- **C10**: `generate_prompts` is a constant function of its input:
it always returns the first 6 entries of the fixed 8-element base prompt
list, because the conditional prompts are appended at positions 8 and
beyond and the result is truncated to 6. -/
theorem generate_prompts_constant (documents : List DocInfo) :
    generate_prompts documents = base_prompts.take 6 ∧
    base_prompts.length = 8 :=
  ⟨generate_prompts_eq_take_six documents, by decide⟩

/-- **C5**: with fewer than 2 records, `cluster_documents` returns the
single `"Single Document"` cluster holding all records; with 2 or more,
it returns exactly one cluster per distinct `file_type` in first-seen
order, named from the uppercased type tag and holding exactly the
records of that type; in particular two records of one type give one
cluster with both, and two records of differing types give two
clusters. -/
theorem cluster_documents_spec :
    (∀ documents : List DocInfo, documents.length < 2 →
      cluster_documents documents =
        { clusters := [{ name := "Single Document", documents := documents }] }) ∧
    (∀ documents : List DocInfo, 2 ≤ documents.length →
      (cluster_documents documents).clusters =
        (dictKeys (documents.map (·.file_type))).map fun ty =>
          { name := pyUpper ty ++ " Documents"
            documents := documents.filter fun d => d.file_type == ty }) ∧
    (∀ d1 d2 : DocInfo, d1.file_type = d2.file_type →
      cluster_documents [d1, d2] =
        { clusters := [{ name := pyUpper d1.file_type ++ " Documents",
                         documents := [d1, d2] }] }) ∧
    (∀ d1 d2 : DocInfo, d1.file_type ≠ d2.file_type →
      cluster_documents [d1, d2] =
        { clusters :=
            [{ name := pyUpper d1.file_type ++ " Documents", documents := [d1] },
             { name := pyUpper d2.file_type ++ " Documents", documents := [d2] }] }) := by
  have hgen : ∀ documents : List DocInfo, 2 ≤ documents.length →
      (cluster_documents documents).clusters =
        (dictKeys (documents.map (·.file_type))).map fun ty =>
          { name := pyUpper ty ++ " Documents"
            documents := documents.filter fun d => d.file_type == ty } := by
    intro documents h
    unfold cluster_documents
    rw [if_neg (by omega), cluster_buckets_eq]
    simp only [List.map_map]
    rfl
  refine ⟨?_, hgen, ?_, ?_⟩
  · intro documents h
    unfold cluster_documents
    rw [if_pos h]
  · intro d1 d2 h
    unfold cluster_documents
    rw [if_neg (by simp)]
    simp only [List.foldl_cons, List.foldl_nil, addToBucket]
    rw [if_pos h]
    rfl
  · intro d1 d2 h
    unfold cluster_documents
    rw [if_neg (by simp)]
    simp only [List.foldl_cons, List.foldl_nil, addToBucket]
    rw [if_neg h]
    rfl

/-- **C3** counterexample: on a record whose text is
`"the. the. ,data ,data"` the claim's pipeline (lowercase, strip
trailing punctuation, then filter) discards the stopword `"the"` and
keeps the leading comma of `",data"`, while `create_mindmap` filters the
raw tokens first (so `"the."` survives the filters and is then stripped
to the stopword `"the"`) and strips punctuation from both ends. -/
theorem create_mindmap_claim_counterexample :
    create_mindmap [punctDoc] ≠ extractTopicsClaim [punctDoc] ∧
    (create_mindmap [punctDoc]).nodes = ["the", "data"] ∧
    (extractTopicsClaim [punctDoc]).nodes = [",data"] := by decide

/-- **C3** (amended): for nonempty records, `create_mindmap` splits the
concatenated texts on whitespace, keeps tokens whose RAW length exceeds
3 and whose lowercased RAW form is not a stopword, then lowercases each
survivor and strips the punctuation set from BOTH ends, counts the
results, and returns the 8 most frequent distinct tokens in
descending-frequency order (ties by first occurrence — the `most_common`
order): the nodes are exactly that pipeline's output, duplicate-free, at
most 8, in weakly descending frequency over the token list, and all
drawn from the token list. -/
theorem create_mindmap_amended (records : List DocInfo) (h : records ≠ []) :
    (create_mindmap records).center =
      "Analysis of " ++ toString records.length ++ " Documents" ∧
    (create_mindmap records).nodes =
      (most_common 8 (mindmapTokens records)).map Prod.fst ∧
    (create_mindmap records).nodes.Nodup ∧
    (create_mindmap records).nodes.length ≤ 8 ∧
    ((create_mindmap records).nodes.Pairwise fun a b =>
      (mindmapTokens records).count b ≤ (mindmapTokens records).count a) ∧
    ∀ w ∈ (create_mindmap records).nodes, w ∈ mindmapTokens records := by
  have hnode : (create_mindmap records).nodes =
      (most_common 8 (mindmapTokens records)).map Prod.fst := by
    unfold create_mindmap
    rw [if_neg h]
    rfl
  have hcenter : (create_mindmap records).center =
      "Analysis of " ++ toString records.length ++ " Documents" := by
    unfold create_mindmap
    rw [if_neg h]
  have hperm := sortDesc_perm (counterOf (mindmapTokens records))
  have hknd : ((counterOf (mindmapTokens records)).map Prod.fst).Nodup := by
    rw [counterOf_keys]
    exact nodup_dictKeys _
  have hSnd :
      (((counterOf (mindmapTokens records)).foldr insertByCount []).map
        Prod.fst).Nodup :=
    (hperm.map Prod.fst).nodup_iff.mpr hknd
  have hsub := List.take_sublist 8
    ((counterOf (mindmapTokens records)).foldr insertByCount [])
  have hcnt : ∀ p ∈ ((counterOf (mindmapTokens records)).foldr
      insertByCount []).take 8,
      p.2 = (mindmapTokens records).count p.1 ∧ p.1 ∈ mindmapTokens records :=
    fun p hp => mem_counterOf _ p (hperm.mem_iff.mp (hsub.subset hp))
  refine ⟨hcenter, hnode, ?_, ?_, ?_, ?_⟩
  · rw [hnode]
    unfold most_common
    exact hSnd.sublist (hsub.map Prod.fst)
  · rw [hnode]
    unfold most_common
    rw [List.length_map]
    exact List.length_take_le _ _
  · rw [hnode]
    unfold most_common
    rw [List.pairwise_map]
    have hp8 := (sortDesc_pairwise (counterOf (mindmapTokens records))).sublist hsub
    refine hp8.imp_of_mem ?_
    intro a b ha hb hab
    rw [← (hcnt a ha).1, ← (hcnt b hb).1]
    exact hab
  · intro w hw
    rw [hnode] at hw
    unfold most_common at hw
    obtain ⟨p, hp, rfl⟩ := List.mem_map.mp hw
    exact (hcnt p hp).2

theorem create_mindmap_amended_witness :
    (create_mindmap [punctDoc]).center =
      "Analysis of " ++ toString ([punctDoc] : List DocInfo).length ++
        " Documents" ∧
    (create_mindmap [punctDoc]).nodes =
      (most_common 8 (mindmapTokens [punctDoc])).map Prod.fst ∧
    (create_mindmap [punctDoc]).nodes.Nodup ∧
    (create_mindmap [punctDoc]).nodes.length ≤ 8 ∧
    ((create_mindmap [punctDoc]).nodes.Pairwise fun a b =>
      (mindmapTokens [punctDoc]).count b ≤ (mindmapTokens [punctDoc]).count a) ∧
    ∀ w ∈ (create_mindmap [punctDoc]).nodes, w ∈ mindmapTokens [punctDoc] :=
  create_mindmap_amended [punctDoc] (by simp)

theorem cluster_documents_spec_witness :
    cluster_documents [pdfDocA] =
      { clusters := [{ name := "Single Document", documents := [pdfDocA] }] } ∧
    cluster_documents [pdfDocA, pdfDocB] =
      { clusters := [{ name := "PDF Documents",
                       documents := [pdfDocA, pdfDocB] }] } ∧
    cluster_documents [pdfDocA, txtDocC] =
      { clusters := [{ name := "PDF Documents", documents := [pdfDocA] },
                     { name := "TXT Documents", documents := [txtDocC] }] } :=
  ⟨cluster_documents_spec.1 [pdfDocA] (by decide),
   cluster_documents_spec.2.2.1 pdfDocA pdfDocB rfl,
   cluster_documents_spec.2.2.2 pdfDocA txtDocC (by decide)⟩

end IntuitusAI
